/-
  Verification of the sandbox-system worker (src/sandbox/server.py) against
  its natural-language specification.

  The Python code is shallowly embedded: pure helpers become Lean functions,
  the container pool and the in-memory session index become explicit state
  passing, raised exceptions become `Except` errors, and the container engine
  (docker) is modelled as a per-container workspace map.  All definitions are
  executable.  The embedding fixes the standalone (non-Redis) configuration,
  which is the branch the in-memory session functions implement.
-/
import Mathlib

namespace Sandbox

/-! ### Character and string helpers

Python string primitives used by the validator, re-expressed over `List Char`
so that list lemmas apply. -/

/-- The single-quote character (ASCII 39). -/
def squoteChar : Char := Char.ofNat 39

/-- The double-quote character (ASCII 34). -/
def dquoteChar : Char := Char.ofNat 34

/-- The backslash character (ASCII 92). -/
def backslashChar : Char := Char.ofNat 92

/-- Whitespace recognized by `shlex` (its `whitespace` attribute is
`" \t\r\n"`). -/
def isShlexWs (c : Char) : Bool :=
  c = ' ' || c = Char.ofNat 9 || c = Char.ofNat 13 || c = Char.ofNat 10

/-- Whitespace stripped by Python `str.strip()`:
space, `\t`, `\n`, `\r`, `\x0b`, `\x0c`. -/
def isPySpace (c : Char) : Bool :=
  c = ' ' || c = Char.ofNat 9 || c = Char.ofNat 10 || c = Char.ofNat 13 ||
  c = Char.ofNat 11 || c = Char.ofNat 12

/-- Python `str.strip()` on the character list. -/
def pyStripData (l : List Char) : List Char :=
  ((l.dropWhile isPySpace).reverse.dropWhile isPySpace).reverse

/-- Python `str.strip()`. -/
def pyStrip (s : String) : String := String.mk (pyStripData s.data)

/-- ASCII lower-casing, the behaviour of Python `str.lower()` on the ASCII
command strings the validator handles. -/
def pyToLower (c : Char) : Char :=
  if 'A' ≤ c && c ≤ 'Z' then Char.ofNat (c.toNat + 32) else c

/-- A word character for the regex `\b` boundary: `[A-Za-z0-9_]`
(the ASCII fragment of `re`'s `\w`). -/
def isWordChar (c : Char) : Bool := c.isAlphanum || c = '_'

/-- Python `needle in haystack` substring test. -/
def containsSub : List Char → List Char → Bool
  | [], needle => needle.isEmpty
  | c :: cs, needle => needle.isPrefixOf (c :: cs) || containsSub cs needle

/-! ### The shlex lexer (`shlex.split(s, posix=True)`)

A faithful transcription of CPython's `shlex.read_token` state machine for
`posix=True`, `whitespace_split=True`, no comment characters and no
punctuation characters — exactly the configuration reached through
`shlex.split`.  A raised `ValueError` becomes `Except.error` carrying the
CPython message. -/

/-- Lexer states: between tokens, inside a word, inside single/double quotes,
after a backslash seen in word context, after a backslash inside double
quotes. -/
inductive LexState where
  | ws | word | squote | dquote | escWord | escDquote
deriving Repr, DecidableEq

/-- Emit the finished token: in posix mode an empty unquoted token is
dropped (`result = None`), an empty quoted token (from `''`) is kept. -/
def emitTok (tok : String) (quoted : Bool) (acc : List String) : List String :=
  if tok = "" && !quoted then acc else acc ++ [tok]

/-- One pass of the `read_token` state machine over the whole input,
collecting tokens as `shlex.split` does. -/
def shlexRun : List Char → LexState → String → Bool → List String →
    Except String (List String)
  | [], .ws, _, _, acc => .ok acc
  | [], .word, tok, quoted, acc => .ok (emitTok tok quoted acc)
  | [], .squote, _, _, _ => .error "No closing quotation"
  | [], .dquote, _, _, _ => .error "No closing quotation"
  | [], .escWord, _, _, _ => .error "No escaped character"
  | [], .escDquote, _, _, _ => .error "No escaped character"
  | c :: cs, .ws, tok, quoted, acc =>
    if isShlexWs c then shlexRun cs .ws "" false acc
    else if c = squoteChar then shlexRun cs .squote tok true acc
    else if c = dquoteChar then shlexRun cs .dquote tok true acc
    else if c = backslashChar then shlexRun cs .escWord tok quoted acc
    else shlexRun cs .word (tok.push c) quoted acc
  | c :: cs, .word, tok, quoted, acc =>
    if isShlexWs c then shlexRun cs .ws "" false (emitTok tok quoted acc)
    else if c = squoteChar then shlexRun cs .squote tok true acc
    else if c = dquoteChar then shlexRun cs .dquote tok true acc
    else if c = backslashChar then shlexRun cs .escWord tok quoted acc
    else shlexRun cs .word (tok.push c) quoted acc
  | c :: cs, .squote, tok, quoted, acc =>
    if c = squoteChar then shlexRun cs .word tok quoted acc
    else shlexRun cs .squote (tok.push c) quoted acc
  | c :: cs, .dquote, tok, quoted, acc =>
    if c = dquoteChar then shlexRun cs .word tok quoted acc
    else if c = backslashChar then shlexRun cs .escDquote tok quoted acc
    else shlexRun cs .dquote (tok.push c) quoted acc
  | c :: cs, .escWord, tok, quoted, acc =>
    shlexRun cs .word (tok.push c) quoted acc
  | c :: cs, .escDquote, tok, quoted, acc =>
    if c = backslashChar || c = dquoteChar then
      shlexRun cs .dquote (tok.push c) quoted acc
    else shlexRun cs .dquote ((tok.push backslashChar).push c) quoted acc

/-- `shlex.split(s, posix=True)`. -/
def shlexSplit (s : String) : Except String (List String) :=
  shlexRun s.data .ws "" false []

/-! ### Command validation (`split_on_operators`, `validate_command`) -/

/-- The pipeline/connective operator tokens of `split_on_operators`. -/
def OPERATOR_TOKENS : List String := ["|", "&&", "||", ";"]

/-- The loop body of `split_on_operators`: walk the token list, flushing the
current group (joined with single spaces) at each operator token. -/
def splitTokensLoop : List String → List String → List String → List String
  | [], current, parts =>
    if current.isEmpty then parts
    else parts ++ [String.intercalate " " current]
  | t :: ts, current, parts =>
    if t ∈ OPERATOR_TOKENS then
      if current.isEmpty then splitTokensLoop ts [] parts
      else splitTokensLoop ts [] (parts ++ [String.intercalate " " current])
    else splitTokensLoop ts (current ++ [t]) parts

/-- `split_on_operators(command)`: lex, then split the token stream on the
operator tokens, re-joining each group with spaces.  The `shlex.split` call
is not guarded, so its `ValueError` propagates (`Except.error`). -/
def split_on_operators (command : String) : Except String (List String) :=
  match shlexSplit command with
  | .error e => .error e
  | .ok tokens => .ok (splitTokensLoop tokens [] [])

/-- Sub-commands in the sense of the specification's words: the lexed token
stream split on the operator tokens, each sub-command kept as a token
sequence (no re-joining, no re-lexing).  Used only to compare the claimed
behaviour with the implemented one. -/
def specSubcommands (tokens : List String) : List (List String) :=
  (tokens.splitOnP (· ∈ OPERATOR_TOKENS)).filter (¬ ·.isEmpty)

/-- `ALLOWED_COMMANDS` from src/sandbox/server.py (a set; order immaterial). -/
def ALLOWED_COMMANDS : List String :=
  ["jq", "awk", "grep", "sed", "sort", "uniq", "head",
   "tail", "wc", "cut", "tr", "cat", "echo", "date",
   "comm", "diff", "tee",
   "find", "ls", "basename", "dirname", "file", "stat",
   "mkdir", "touch", "rm", "cp", "mv",
   "cd", "pwd", "whoami",
   "python3", "python", "bc"]

/-- `sorted(ALLOWED_COMMANDS)`, as interpolated into the whitelist error
message. -/
def ALLOWED_COMMANDS_SORTED : List String :=
  ["awk", "basename", "bc", "cat", "cd", "comm", "cp", "cut", "date",
   "diff", "dirname", "echo", "file", "find", "grep", "head", "jq", "ls",
   "mkdir", "mv", "pwd", "python", "python3", "rm", "sed", "sort", "stat",
   "tail", "tee", "touch", "tr", "uniq", "wc", "whoami"]

/-- `FORBIDDEN_PATTERNS` from src/sandbox/server.py: each is the regex
`\bWORD\b`. -/
def FORBIDDEN_PATTERNS : List String :=
  ["\\brm\\b", "\\bmv\\b", "\\bdd\\b", "\\bcurl\\b", "\\bwget\\b",
   "\\bssh\\b", "\\bsudo\\b", "\\bchmod\\b", "\\bchown\\b"]

/-- The literal word between the two `\b` anchors of a forbidden pattern. -/
def patternCore (p : String) : String := (p.drop 2).dropRight 2

/-- Does `w` occur at the head of `text` (as a prefix)?  Returns the rest. -/
def dropWordAt : List Char → List Char → Option (List Char)
  | rest, [] => some rest
  | [], _ :: _ => none
  | c :: cs, w :: ws => if c = w then dropWordAt cs ws else none

/-- The `\b` boundary before a match: start of string or a non-word
character. -/
def boundaryBefore : Option Char → Bool
  | none => true
  | some c => !isWordChar c

/-- The `\b` boundary after a match: end of string or a non-word
character. -/
def boundaryAfter : List Char → Bool
  | [] => true
  | c :: _ => !isWordChar c

/-- `re.search(\bw\b, text)` for a literal word `w`: scan every position,
checking the two word boundaries. -/
def searchWord (w : List Char) : List Char → Option Char → Bool
  | text, prev =>
    (boundaryBefore prev &&
      (match dropWordAt text w with
       | some rest => boundaryAfter rest
       | none => false)) ||
    (match text with
     | [] => false
     | c :: cs => searchWord w cs (some c))

/-- `re.search(p, command, re.IGNORECASE)` for a forbidden pattern
`p = \bWORD\b`: case-insensitivity is modelled by lower-casing the text
(the pattern words are already lower case). -/
def matchesForbidden (p : String) (command : String) : Bool :=
  searchWord (patternCore p).data (command.data.map pyToLower) none

/-- The result dictionary of `validate_command`:
`{"valid": bool, "error": str, "pattern": str}` (absent keys are `none`). -/
structure ValidationResult where
  valid : Bool
  error : Option String := none
  pattern : Option String := none
deriving Repr, DecidableEq

/-- The whitelist rejection message
`f"Command '{tok}' not in whitelist. Allowed: {', '.join(sorted(...))}"`. -/
def notWhitelistedMsg (tok : String) : String :=
  "Command " ++ squoteChar.toString ++ tok ++ squoteChar.toString ++
  " not in whitelist. Allowed: " ++ String.intercalate ", " ALLOWED_COMMANDS_SORTED

/-- The per-part loop of `validate_command`: re-lex each part inside a
`try`, so a `ValueError` here is caught and reported as invalid syntax. -/
def checkParts : List String → ValidationResult
  | [] => { valid := true }
  | part :: rest =>
    match shlexSplit part with
    | .error e =>
      { valid := false, error := some ("Invalid command syntax: " ++ e) }
    | .ok tokens =>
      match tokens with
      | [] => checkParts rest
      | t0 :: _ =>
        if t0 ∈ ALLOWED_COMMANDS then checkParts rest
        else { valid := false, error := some (notWhitelistedMsg t0) }

/-- `validate_command(command)`.  The initial lex inside
`split_on_operators` is *not* inside the `try`, so its `ValueError`
escapes the function (`Except.error`); the re-lex of each part is caught. -/
def validate_command (command : String) : Except String ValidationResult :=
  if command = "" || pyStrip command = "" then
    .ok { valid := false, error := some "Empty command" }
  else
    match FORBIDDEN_PATTERNS.find? (fun p => matchesForbidden p command) with
    | some p =>
      .ok { valid := false,
            error := some ("Command contains forbidden pattern: " ++ p),
            pattern := some p }
    | none =>
      match split_on_operators command with
      | .error e => .error e
      | .ok parts => .ok (checkParts parts)

/-! ### Configuration (settings.py)

Only the fields the verified operations read.  `settings.validate()`
enforces `MIN_POOL_SIZE ≤ POOL_SIZE ≤ MAX_POOL_SIZE` (with further checks on
timeouts and CPU quota that the pool and file operations never read). -/

structure Config where
  POOL_SIZE : Nat
  MIN_POOL_SIZE : Nat
  MAX_POOL_SIZE : Nat
  AGGRESSIVE_CLEANUP : Bool
  MAX_FILE_SIZE : Nat
  MAX_TOTAL_FILES : Nat
  MAX_WORKSPACE_SIZE : Nat
deriving Repr, DecidableEq

/-- The pool-relevant part of `Settings.validate()`. -/
def validPoolConfig (cfg : Config) : Bool :=
  cfg.MIN_POOL_SIZE ≤ cfg.POOL_SIZE && cfg.POOL_SIZE ≤ cfg.MAX_POOL_SIZE

/-- `WORKSPACE_DIR` (settings default, fixed in the model). -/
def WORKSPACE_DIR : String := "/workspace"

/-! ### The container pool (`ContainerPool`)

State of the pool: `containers` is the Python list of available containers
(append at the end, `pop()` from the end), `allocated` the identifiers held
by sessions (the map's allocation timestamps are irrelevant to every claim
and are dropped).  The docker engine is modelled as an infallible id
generator: `_create_container` hands out `nextId` and bumps it.  Mutex
acquisition disappears: each operation is one atomic state transformation,
which is what the lock makes it. -/

structure PoolState where
  containers : List Nat
  allocated : List Nat
  nextId : Nat
deriving Repr, DecidableEq

/-- `ContainerPool.initialize()`: create `POOL_SIZE` containers and append
each to the available list. -/
def poolInit (cfg : Config) : PoolState :=
  { containers := List.range cfg.POOL_SIZE, allocated := [],
    nextId := cfg.POOL_SIZE }

/-- `ContainerPool.get_container()`: fast path pops a pre-warmed container
and records it allocated (the async refill it schedules is a separate
`refill_pool` transition); slow path refuses at `MAX_POOL_SIZE`, else
creates on demand. -/
def get_container (cfg : Config) (s : PoolState) : Option Nat × PoolState :=
  match s.containers.getLast? with
  | some c =>
    (some c, { s with containers := s.containers.dropLast,
                      allocated := s.allocated ++ [c] })
  | none =>
    if s.allocated.length ≥ cfg.MAX_POOL_SIZE then (none, s)
    else
      (some s.nextId, { s with allocated := s.allocated ++ [s.nextId],
                               nextId := s.nextId + 1 })

/-- `ContainerPool.return_container(container)`: remove from `allocated`
unconditionally, reset the workspace (an engine call, no pool-state
effect), then keep or destroy by the placement rules. -/
def return_container (cfg : Config) (cid : Nat) (s : PoolState) : PoolState :=
  let s1 := { s with allocated := s.allocated.erase cid }
  let cur := s1.containers.length
  let tot := cur + s1.allocated.length
  if cfg.AGGRESSIVE_CLEANUP then
    if cur < cfg.MIN_POOL_SIZE then
      { s1 with containers := s1.containers ++ [cid] }
    else if cur < cfg.POOL_SIZE && tot < cfg.MAX_POOL_SIZE then
      { s1 with containers := s1.containers ++ [cid] }
    else s1
  else
    if cur < cfg.MAX_POOL_SIZE then
      { s1 with containers := s1.containers ++ [cid] }
    else s1

/-- `ContainerPool._refill_pool()` (the body after the debounce sleep):
if the available list is below `MIN_POOL_SIZE`, create containers up to
`MIN_POOL_SIZE` — the check reads only `containers`, never `allocated`. -/
def refill_pool (cfg : Config) (s : PoolState) : PoolState :=
  if s.containers.length < cfg.MIN_POOL_SIZE then
    let needed := cfg.MIN_POOL_SIZE - s.containers.length
    { s with containers := s.containers ++ (List.range needed).map (· + s.nextId),
             nextId := s.nextId + needed }
  else s

/-- Pool states reachable through the pool's own operations, starting from
`initialize()`.  `return_container` is only ever invoked on a container a
session holds, hence on a member of `allocated`. -/
inductive PoolReachable (cfg : Config) : PoolState → Prop where
  | init : PoolReachable cfg (poolInit cfg)
  | get {s : PoolState} : PoolReachable cfg s →
      PoolReachable cfg (get_container cfg s).2
  | ret {s : PoolState} {cid : Nat} : PoolReachable cfg s →
      cid ∈ s.allocated → PoolReachable cfg (return_container cfg cid s)
  | refill {s : PoolState} : PoolReachable cfg s →
      PoolReachable cfg (refill_pool cfg s)

/-- The claimed pool bound `|available| + |allocated| ≤ max_size`. -/
abbrev poolBound (cfg : Config) (s : PoolState) : Prop :=
  s.containers.length + s.allocated.length ≤ cfg.MAX_POOL_SIZE

/-! ### Dictionaries

Python `dict` on hashable keys: assignment replaces in place or appends,
lookup scans.  Insertion order is preserved, as in CPython. -/

/-- `d[k] = v`. -/
def setKV {α β : Type} [DecidableEq α] : List (α × β) → α → β → List (α × β)
  | [], k, v => [(k, v)]
  | (k0, v0) :: rest, k, v =>
    if k0 = k then (k, v) :: rest else (k0, v0) :: setKV rest k v

/-- `d.get(k)`. -/
def getKV {α β : Type} [DecidableEq α] : List (α × β) → α → Option β
  | [], _ => none
  | (k0, v0) :: rest, k => if k0 = k then some v0 else getKV rest k

/-! ### Sessions and the worker state (standalone mode)

`REDIS_ENABLED = False`: the session index lives in the three in-process
dicts `active_sessions`, `session_last_activity`, `thread_to_session`.
The docker engine is modelled by `workspaces`: each container's
`/workspace` as a file-name → bytes dict.  `uuid.uuid4()` is modelled by a
fresh-id counter (`sidName`): the claims depend only on freshness.
Timestamps (`datetime.now()`) are an abstract tick `now` supplied by the
caller. -/

abbrev Bytes := List Nat

abbrev Workspace := List (String × Bytes)

structure SessionData where
  container_id : Nat
  user_id : String
  thread_id : String
  created_at : Nat
  last_activity : Nat
  worker : String
deriving Repr, DecidableEq

structure ServerState where
  pool : PoolState
  active_sessions : List (String × SessionData)
  session_last_activity : List (String × Nat)
  thread_to_session : List (String × String)
  workspaces : List (Nat × Workspace)
  nextSessionId : Nat
deriving Repr, DecidableEq

/-- Model of `str(uuid.uuid4())`: a fresh session identifier. -/
def sidName (n : Nat) : String := "sid-" ++ toString n

/-- The files of a container's `/workspace`. -/
def workspaceOf (st : ServerState) (cid : Nat) : Workspace :=
  (getKV st.workspaces cid).getD []

/-- Engine model: write one file into a container's workspace. -/
def putFileInContainer (st : ServerState) (cid : Nat) (name : String)
    (data : Bytes) : ServerState :=
  { st with
    workspaces := setKV st.workspaces cid (setKV (workspaceOf st cid) name data) }

/-- Engine model: read one file from a container's workspace. -/
def getFileInContainer (st : ServerState) (cid : Nat) (name : String) :
    Option Bytes :=
  getKV (workspaceOf st cid) name

/-- `store_thread_mapping` (standalone branch). -/
def store_thread_mapping (st : ServerState) (thread_id session_id : String) :
    ServerState :=
  { st with thread_to_session := setKV st.thread_to_session thread_id session_id }

/-- `get_session_by_thread` (standalone branch). -/
def get_session_by_thread (st : ServerState) (thread_id : String) :
    Option String :=
  getKV st.thread_to_session thread_id

/-- `store_session` (standalone branch; `WORKER_ID` defaults to
`standalone`). -/
def store_session (now : Nat) (st : ServerState)
    (session_id : String) (container_id : Nat) (user_id thread_id : String) :
    ServerState :=
  { st with
    active_sessions := setKV st.active_sessions session_id
      { container_id := container_id, user_id := user_id,
        thread_id := thread_id, created_at := now, last_activity := now,
        worker := "standalone" },
    session_last_activity := setKV st.session_last_activity session_id now }

/-- `get_session` (standalone branch). -/
def get_session (st : ServerState) (session_id : String) :
    Option SessionData :=
  getKV st.active_sessions session_id

/-- `update_session_activity` (standalone branch). -/
def update_session_activity (now : Nat) (st : ServerState)
    (session_id : String) : ServerState :=
  match get_session st session_id with
  | none => st
  | some d =>
    { st with
      active_sessions := setKV st.active_sessions session_id
        { d with last_activity := now },
      session_last_activity := setKV st.session_last_activity session_id now }

/-! ### Session creation -/

/-- `str(HTTPException)`: `f"{status_code}: {detail}"` (starlette). -/
def httpExcStr (status : Nat) (detail : String) : String :=
  toString status ++ ": " ++ detail

inductive CreateHttpResult where
  /-- 201 with `status:"created"`. -/
  | created (session_id thread_id : String)
  /-- 409 with `status:"existing"`. -/
  | existing (session_id thread_id : String)
  /-- an `HTTPException` reaching the framework. -/
  | err (status : Nat) (detail : String)
deriving Repr, DecidableEq

/-- The body of the `try:` block of the `/create_session` endpoint together
with its `except Exception` clause: the 503 `HTTPException` raised on pool
saturation is an `Exception`, so the clause catches it and re-raises
`HTTPException(500, str(e))`. -/
def create_session_http_new (cfg : Config) (now : Nat) (st : ServerState)
    (user_id thread_id : String) : CreateHttpResult × ServerState :=
  let sid := sidName st.nextSessionId
  let st0 := { st with nextSessionId := st.nextSessionId + 1 }
  match get_container cfg st0.pool with
  | (none, pool1) =>
    (.err 500 (httpExcStr 503 "Pool at max capacity, try again later"),
     { st0 with pool := pool1 })
  | (some cid, pool1) =>
    let st1 := store_session now { st0 with pool := pool1 } sid cid user_id thread_id
    let st2 := store_thread_mapping st1 thread_id sid
    (.created sid thread_id, st2)

/-- The `/create_session` endpoint: reuse the live session of the thread if
one exists, else create (a stale thread mapping falls through to
creation). -/
def create_session_http (cfg : Config) (now : Nat) (st : ServerState)
    (user_id thread_id : String) : CreateHttpResult × ServerState :=
  match get_session_by_thread st thread_id with
  | some esid =>
    match get_session st esid with
    | some _ => (.existing esid thread_id, st)
    | none => create_session_http_new cfg now st user_id thread_id
  | none => create_session_http_new cfg now st user_id thread_id

/-- The result dictionary of `SandboxServer.create_session` (the fields the
claims read). -/
structure LocalCreateResult where
  session_id : String
  thread_id : String
  status : String
deriving Repr, DecidableEq

/-- The creation path of `SandboxServer.create_session`: on pool saturation
it raises a plain `Exception("Pool at max capacity")`. -/
def sandbox_server_create_new (cfg : Config) (now : Nat) (st : ServerState)
    (user_id thread_id : String) :
    Except String LocalCreateResult × ServerState :=
  let sid := sidName st.nextSessionId
  let st0 := { st with nextSessionId := st.nextSessionId + 1 }
  match get_container cfg st0.pool with
  | (none, pool1) => (.error "Pool at max capacity", { st0 with pool := pool1 })
  | (some cid, pool1) =>
    let st1 := store_session now { st0 with pool := pool1 } sid cid user_id thread_id
    let st2 := store_thread_mapping st1 thread_id sid
    (.ok { session_id := sid, thread_id := thread_id, status := "created" }, st2)

/-- `SandboxServer.create_session` (local mode): the existing branch fires
when the thread mapping resolves and its session id is a key of
`active_sessions`. -/
def sandbox_server_create_session (cfg : Config) (now : Nat)
    (st : ServerState) (user_id thread_id : String) :
    Except String LocalCreateResult × ServerState :=
  match get_session_by_thread st thread_id with
  | some esid =>
    if (get_session st esid).isSome then
      (.ok { session_id := esid, thread_id := thread_id, status := "existing" }, st)
    else sandbox_server_create_new cfg now st user_id thread_id
  | none => sandbox_server_create_new cfg now st user_id thread_id

/-! ### Command execution -/

/-- What `container.exec_run([bash, -c, command], demux=True)` hands back:
the exit code and, when demultiplexing produced anything, the pair of
optional stdout/stderr byte strings; `elapsed_ms` is the wall-clock time
the call took (read through `time.time()`). -/
structure ExecOutcome where
  exit_code : Int
  output : Option (Option Bytes × Option Bytes)
  elapsed_ms : Nat
deriving Repr, DecidableEq

/-- Python truthiness of an optional bytes value: `None` and `b""` are
falsy. -/
def pyBytesTruthy : Option Bytes → Bool
  | none => false
  | some b => !b.isEmpty

/-- The Unicode replacement character U+FFFD. -/
def replacementChar : Char := Char.ofNat 0xFFFD

/-- A UTF-8 continuation byte. -/
def isContByte (b : Nat) : Bool := 0x80 ≤ b && b ≤ 0xBF

/-- `bytes.decode("utf-8", errors="replace")`: well-formed sequences decode
exactly; a malformed lead or continuation byte becomes U+FFFD and decoding
resynchronizes (the exact number of replacement characters per malformed
sequence differs from CPython's maximal-subpart policy in corner cases;
no verified property touches malformed input). -/
def utf8DecodeReplace : List Nat → List Char
  | [] => []
  | b :: rest =>
    if b < 0x80 then Char.ofNat b :: utf8DecodeReplace rest
    else if 0xC2 ≤ b && b ≤ 0xDF then
      match rest with
      | b2 :: rest2 =>
        if isContByte b2 then
          Char.ofNat ((b - 0xC0) * 64 + (b2 - 0x80)) :: utf8DecodeReplace rest2
        else replacementChar :: utf8DecodeReplace (b2 :: rest2)
      | [] => [replacementChar]
    else if 0xE0 ≤ b && b ≤ 0xEF then
      match rest with
      | b2 :: b3 :: rest3 =>
        if isContByte b2 && isContByte b3 then
          let code := (b - 0xE0) * 4096 + (b2 - 0x80) * 64 + (b3 - 0x80)
          if 0x800 ≤ code && !(0xD800 ≤ code && code ≤ 0xDFFF) then
            Char.ofNat code :: utf8DecodeReplace rest3
          else replacementChar :: utf8DecodeReplace rest3
        else replacementChar :: utf8DecodeReplace (b2 :: b3 :: rest3)
      | _ => [replacementChar]
    else if 0xF0 ≤ b && b ≤ 0xF4 then
      match rest with
      | b2 :: b3 :: b4 :: rest4 =>
        if isContByte b2 && isContByte b3 && isContByte b4 then
          let code := (b - 0xF0) * 262144 + (b2 - 0x80) * 4096 +
            (b3 - 0x80) * 64 + (b4 - 0x80)
          if 0x10000 ≤ code && code ≤ 0x10FFFF then
            Char.ofNat code :: utf8DecodeReplace rest4
          else replacementChar :: utf8DecodeReplace rest4
        else replacementChar :: utf8DecodeReplace (b2 :: b3 :: b4 :: rest4)
      | _ => [replacementChar]
    else replacementChar :: utf8DecodeReplace rest
termination_by l => l.length
decreasing_by all_goals (simp only [List.length_cons]; omega)

/-- String-valued decode. -/
def utf8Decode (b : Bytes) : String := String.mk (utf8DecodeReplace b)

/-- The output-parsing block shared by both execute paths
(`output_stdout = ""; output_stderr = ""; if result.output: ...`): each
field is the decoded stream when the stream holds bytes, and the empty
string when the stream is `None`, empty, or the output object is absent. -/
def parse_exec_output (output : Option (Option Bytes × Option Bytes)) :
    String × String :=
  match output with
  | none => ("", "")
  | some (so, se) =>
    ((if pyBytesTruthy so then utf8Decode (so.getD []) else ""),
     (if pyBytesTruthy se then utf8Decode (se.getD []) else ""))

inductive ExecuteHttpResult where
  | ok (exit_code : Int) (stdout stderr : String) (execution_time_ms : Nat)
  /-- an `HTTPException` (status 400/404/500) or, for status 500 with the
  `escaped` flag, an exception that left the endpoint uncaught. -/
  | err (status : Nat) (error : String) (forbidden_pattern : Option String)
deriving Repr, DecidableEq

/-- The `/execute` endpoint.  Validation runs first, outside any `try`: an
invalid command raises `HTTPException(400, {error, command, forbidden_pattern})`,
and a `ValueError` escaping `validate_command` reaches the framework as an
internal server error (500).  Only then is the session fetched and the
command dispatched; `engine` is the container runtime's exec behaviour. -/
def execute_command_http (now : Nat) (engine : Nat → String → ExecOutcome)
    (st : ServerState) (session_id command : String) :
    ExecuteHttpResult × ServerState :=
  match validate_command command with
  | .error e => (.err 500 e none, st)
  | .ok vr =>
    if vr.valid then
      match get_session st session_id with
      | none => (.err 404 "Invalid or expired session" none, st)
      | some sdata =>
        let res := engine sdata.container_id command
        let st1 := update_session_activity now st session_id
        let outs := parse_exec_output res.output
        (.ok res.exit_code outs.1 outs.2 res.elapsed_ms, st1)
    else (.err 400 (vr.error.getD "") vr.pattern, st)

/-! ### File operations -/

/-- The single member of the archive streamed through
`put_archive`/`get_archive`. -/
structure TarEntry where
  name : String
  data : Bytes
deriving Repr, DecidableEq

/-- Engine model: `container.put_archive(WORKSPACE_DIR, tar)` extracts the
single entry into the workspace. -/
def put_archive (st : ServerState) (cid : Nat) (entry : TarEntry) :
    ServerState :=
  putFileInContainer st cid entry.name entry.data

/-- Engine model: `container.get_archive(path)` — an API call taking the
path as an explicit parameter, no shell involved — wraps the file whose
absolute path (`/workspace/` plus its workspace name) is `path` into a
single-entry archive, `None` when no file sits there. -/
def get_archive (st : ServerState) (cid : Nat) (path : String) :
    Option TarEntry :=
  match (workspaceOf st cid).find?
      (fun e => WORKSPACE_DIR ++ "/" ++ e.1 = path) with
  | some e => some { name := e.1, data := e.2 }
  | none => none

/-- Engine model of `get_workspace_info`: total bytes (`du -sb`) and file
count (`find -type f | wc -l`) of the workspace. -/
def get_workspace_info (ws : Workspace) : Nat × Nat :=
  (ws.foldr (fun f acc => acc + f.2.length) 0, ws.length)

inductive UploadHttpResult where
  | uploaded (filename path : String) (size_bytes : Nat)
  | err (status : Nat) (error : String)
deriving Repr, DecidableEq

/-- The `/upload_file` endpoint.  Note the absence of any check of
`filename` against `..` or a leading `/` — compare `download_file_http`.
The trailing `chown` engine call is not modelled: its exit status is
discarded by the code and it never alters file bytes.  (Its command string
interpolates the filename unquoted as well, so a filename whose lexing
raises — an unmatched quote — would abort the upload with a 500 after the
archive write; no verified statement quantifies over such filenames.) -/
def upload_file_http (cfg : Config) (now : Nat) (st : ServerState)
    (session_id filename : String) (file_data : Bytes) :
    UploadHttpResult × ServerState :=
  if session_id = "" then (.err 400 "session_id required", st)
  else
    match get_session st session_id with
    | none => (.err 404 "Invalid or expired session", st)
    | some sdata =>
      let file_size := file_data.length
      if file_size > cfg.MAX_FILE_SIZE then
        (.err 413 "File size exceeds maximum allowed size", st)
      else
        let info := get_workspace_info (workspaceOf st sdata.container_id)
        if info.2 ≥ cfg.MAX_TOTAL_FILES then
          (.err 507 "Maximum file count exceeded", st)
        else if info.1 + file_size > cfg.MAX_WORKSPACE_SIZE then
          (.err 507 "Workspace size limit exceeded", st)
        else
          let st1 := put_archive st sdata.container_id
            { name := filename, data := file_data }
          let st2 := update_session_activity now st1 session_id
          (.uploaded filename (WORKSPACE_DIR ++ "/" ++ filename) file_size, st2)

/-- The result dictionary of `SandboxServer.upload_file`. -/
structure LocalUploadResult where
  filename : String
  path : String
  size_bytes : Nat
deriving Repr, DecidableEq

/-- `SandboxServer.upload_file` (local mode): the same checks in the same
order — and likewise no path-safety check on `filename`. -/
def sandbox_server_upload_file (cfg : Config) (now : Nat) (st : ServerState)
    (session_id filename : String) (file_data : Bytes) :
    Except String LocalUploadResult × ServerState :=
  match get_session st session_id with
  | none => (.error "Session not found or expired", st)
  | some sdata =>
    let file_size := file_data.length
    if file_size > cfg.MAX_FILE_SIZE then
      (.error "File size exceeds maximum allowed size", st)
    else
      let info := get_workspace_info (workspaceOf st sdata.container_id)
      if info.2 ≥ cfg.MAX_TOTAL_FILES then
        (.error "Maximum file count exceeded", st)
      else if info.1 + file_size > cfg.MAX_WORKSPACE_SIZE then
        (.error "Workspace size limit exceeded", st)
      else
        let st1 := put_archive st sdata.container_id
          { name := filename, data := file_data }
        let st2 := update_session_activity now st1 session_id
        (.ok { filename := filename, path := WORKSPACE_DIR ++ "/" ++ filename,
               size_bytes := file_size }, st2)

/-- `filename.startswith("/")`. -/
def startsWithSlash (s : String) : Bool :=
  match s.data with
  | c :: _ => c = '/'
  | [] => false

/-- The path-safety predicate of `download_file`:
`".." in filename or filename.startswith("/")`. -/
def pathUnsafe (filename : String) : Bool :=
  containsSub filename.data ['.', '.'] || startsWithSlash filename

inductive DownloadHttpResult where
  /-- the binary 200 response. -/
  | fileResp (data : Bytes) (filename : String)
  | err (status : Nat) (error : String)
deriving Repr, DecidableEq

/-- The existence-probe command of `download_file`:
`f'test -f {WORKSPACE_DIR}/{filename}'` — the filename interpolated
unquoted into a shell word. -/
def probeCmd (filename : String) : String :=
  "test -f " ++ WORKSPACE_DIR ++ "/" ++ filename

/-- Engine model of exec'ing `test` with the lexed argument vector: exit
code 0 exactly for the two-operand form `test -f p` with a workspace file
of the container at absolute path `p`.  Every other shape the probe can
produce (four or more words, when the filename contains whitespace) makes
`test` exit non-zero ("extra argument"). -/
def test_dash_f (st : ServerState) (cid : Nat) (argv : List String) : Bool :=
  match argv with
  | [t, f, p] =>
    t = "test" && f = "-f" &&
      (workspaceOf st cid).any (fun e => WORKSPACE_DIR ++ "/" ++ e.1 = p)
  | _ => false

/-- The `/download_file` endpoint: argument check, path-safety check,
session lookup, then the existence probe
`container.exec_run(f'test -f {WORKSPACE_DIR}/{filename}')`.  docker-py
lexes a string command with `shlex.split` (`docker.utils.split_command`),
so a filename that breaks the unquoted interpolation changes the probe: a
quote raises `ValueError` inside the `try`, caught by `except Exception`
as a 500; whitespace splits the path into extra `test` operands and the
probe exits non-zero, a 404.  On a passing probe the archive is streamed
through `get_archive` (a path-parameter API call, not a shell command) and
the single member's bytes form the response body. -/
def download_file_http (now : Nat) (st : ServerState)
    (session_id filename : String) : DownloadHttpResult × ServerState :=
  if session_id = "" || filename = "" then
    (.err 400 "session_id and filename required", st)
  else if pathUnsafe filename then (.err 400 "Invalid filename", st)
  else
    match get_session st session_id with
    | none => (.err 404 "Invalid or expired session", st)
    | some sdata =>
      match shlexSplit (probeCmd filename) with
      | .error e => (.err 500 e, st)
      | .ok argv =>
        if test_dash_f st sdata.container_id argv then
          match get_archive st sdata.container_id
              (WORKSPACE_DIR ++ "/" ++ filename) with
          | some entry =>
            let st1 := update_session_activity now st session_id
            (.fileResp entry.data filename, st1)
          | none => (.err 500 "archive read failed", st)
        else (.err 404 "File not found in workspace", st)

/-! ### Helper lemmas -/

theorem getKV_setKV_self {α β : Type} [DecidableEq α]
    (l : List (α × β)) (k : α) (v : β) : getKV (setKV l k v) k = some v := by
  induction l with
  | nil => simp [setKV, getKV]
  | cons hd tl ih =>
    obtain ⟨k0, v0⟩ := hd
    by_cases h : k0 = k
    · simp [setKV, getKV, h]
    · simp [setKV, getKV, h, ih]

theorem getKV_setKV_ne {α β : Type} [DecidableEq α]
    (l : List (α × β)) (k k' : α) (v : β) (h : k' ≠ k) :
    getKV (setKV l k v) k' = getKV l k' := by
  induction l with
  | nil => simp [setKV, getKV, Ne.symm h]
  | cons hd tl ih =>
    obtain ⟨k0, v0⟩ := hd
    by_cases hk : k0 = k
    · subst hk
      simp [setKV, getKV, Ne.symm h]
    · simp [setKV, getKV, hk, ih]

/-- A successful anchored match forces the text to start with the word. -/
theorem dropWordAt_head {text rest : List Char} {w : Char} {ws : List Char}
    (h : dropWordAt text (w :: ws) = some rest) :
    ∃ t', text = w :: t' := by
  cases text with
  | nil => simp [dropWordAt] at h
  | cons c cs =>
    by_cases hc : c = w
    · exact ⟨cs, by rw [hc]⟩
    · simp [dropWordAt, hc] at h

/-- A successful word search finds a character of the word in the text. -/
theorem searchWord_mem {w : List Char} (hw : w ≠ []) :
    ∀ (text : List Char) (prev : Option Char),
      searchWord w text prev = true → ∃ c ∈ text, c ∈ w := by
  intro text
  induction text with
  | nil =>
    intro prev h
    obtain ⟨w0, ws, rfl⟩ := List.exists_cons_of_ne_nil hw
    rw [searchWord] at h
    simp [dropWordAt] at h
  | cons c cs ih =>
    intro prev h
    rw [searchWord, Bool.or_eq_true] at h
    rcases h with h1 | h2
    · obtain ⟨w0, ws, hws⟩ := List.exists_cons_of_ne_nil hw
      subst hws
      rw [Bool.and_eq_true] at h1
      obtain ⟨-, h1b⟩ := h1
      rcases hm : dropWordAt (c :: cs) (w0 :: ws) with _ | rest
      · rw [hm] at h1b; simp at h1b
      · obtain ⟨t', ht⟩ := dropWordAt_head hm
        injection ht with hc _
        exact ⟨c, List.mem_cons_self c cs, by simp [hc]⟩
    · obtain ⟨d, hd, hdw⟩ := ih (some c) h2
      exact ⟨d, List.mem_cons_of_mem c hd, hdw⟩

/-- Every forbidden pattern strips to a nonempty word of word-characters. -/
theorem forbidden_cores_wordlike :
    ∀ p ∈ FORBIDDEN_PATTERNS,
      (patternCore p).data ≠ [] ∧
      ∀ c ∈ (patternCore p).data, isWordChar c = true := by
  decide

/-- Lower-casing a Python-whitespace character never yields a word
character. -/
theorem pySpace_lower_not_word (c : Char) (h : isPySpace c = true) :
    isWordChar (pyToLower c) = false := by
  simp only [isPySpace, Bool.or_eq_true, decide_eq_true_eq] at h
  rcases h with ((((h | h) | h) | h) | h) | h <;> subst h <;> decide

/-- A string that strips to empty is all Python whitespace. -/
theorem pyStrip_empty_all_space {s : String} (h : pyStrip s = "") :
    ∀ c ∈ s.data, isPySpace c = true := by
  have hdata : pyStripData s.data = [] := by
    have : (pyStrip s).data = ("" : String).data := by rw [h]
    simpa [pyStrip] using this
  unfold pyStripData at hdata
  rw [List.reverse_eq_nil_iff] at hdata
  have h2 : ∀ c ∈ (s.data.dropWhile isPySpace).reverse, isPySpace c = true :=
    List.dropWhile_eq_nil_iff.mp hdata
  have h3 : ∀ c ∈ s.data.dropWhile isPySpace, isPySpace c = true := by
    intro c hc
    exact h2 c (List.mem_reverse.mpr hc)
  intro c hc
  rw [← List.takeWhile_append_dropWhile (p := isPySpace) (l := s.data)] at hc
  rcases List.mem_append.mp hc with hc | hc
  · exact List.mem_takeWhile_imp hc
  · exact h3 c hc

/-- A command matching a forbidden pattern is not whitespace-only: the
validator's empty-command branch cannot fire on it. -/
theorem matchesForbidden_not_blank {p cmd : String}
    (hp : p ∈ FORBIDDEN_PATTERNS) (hm : matchesForbidden p cmd = true) :
    cmd ≠ "" ∧ pyStrip cmd ≠ "" := by
  obtain ⟨hne, hword⟩ := forbidden_cores_wordlike p hp
  obtain ⟨c, hc, hcw⟩ := searchWord_mem hne _ _ hm
  obtain ⟨c0, hc0, hc0l⟩ := List.mem_map.mp hc
  constructor
  · intro hcmd
    subst hcmd
    simp at hc0
  · intro hstrip
    have hsp : isPySpace c0 = true := pyStrip_empty_all_space hstrip c0 hc0
    have : isWordChar (pyToLower c0) = false := pySpace_lower_not_word c0 hsp
    rw [hc0l] at this
    rw [hword c hcw] at this
    simp at this

/-- `validate_command` on a command matching a forbidden pattern: the first
matching pattern is reported, with the `pattern` key set. -/
theorem validate_command_forbidden {cmd p : String}
    (h : FORBIDDEN_PATTERNS.find? (fun q => matchesForbidden q cmd) = some p) :
    validate_command cmd =
      .ok { valid := false,
            error := some ("Command contains forbidden pattern: " ++ p),
            pattern := some p } := by
  have hp : p ∈ FORBIDDEN_PATTERNS := List.mem_of_find?_eq_some h
  have hm : matchesForbidden p cmd = true := by
    have := List.find?_some h
    simpa using this
  obtain ⟨h1, h2⟩ := matchesForbidden_not_blank hp hm
  unfold validate_command
  simp [h1, h2, h]

/-- If every part re-lexes with a whitelisted (or absent) first token,
`checkParts` accepts. -/
theorem checkParts_all_whitelisted (parts : List String)
    (h : ∀ part ∈ parts, ∃ tokens, shlexSplit part = .ok tokens ∧
         (tokens = [] ∨ ∃ t0 tl, tokens = t0 :: tl ∧ t0 ∈ ALLOWED_COMMANDS)) :
    checkParts parts = { valid := true } := by
  induction parts with
  | nil => rfl
  | cons part rest ih =>
    obtain ⟨tokens, htok, hcase⟩ := h part (List.mem_cons_self part rest)
    have hrest := ih (fun p hp => h p (List.mem_cons_of_mem _ hp))
    unfold checkParts
    rw [htok]
    rcases hcase with rfl | ⟨t0, tl, rfl, hmem⟩
    · exact hrest
    · simpa [hmem] using hrest

/-- If `checkParts` accepts, every part re-lexes and its first token, when
present, is whitelisted. -/
theorem checkParts_true_implies (parts : List String)
    (h : checkParts parts = { valid := true }) :
    ∀ part ∈ parts, ∃ tokens, shlexSplit part = .ok tokens ∧
      ∀ t0, tokens.head? = some t0 → t0 ∈ ALLOWED_COMMANDS := by
  induction parts with
  | nil => intro part hp; simp at hp
  | cons part rest ih =>
    unfold checkParts at h
    rcases htok : shlexSplit part with e | tokens
    · rw [htok] at h; simp at h
    · rw [htok] at h
      intro q hq
      rcases tokens with _ | ⟨t0, tl⟩
      · dsimp only at h
        rcases List.mem_cons.mp hq with rfl | hq'
        · exact ⟨[], htok, by intro t0 ht; simp at ht⟩
        · exact ih h q hq'
      · dsimp only at h
        by_cases hmem : t0 ∈ ALLOWED_COMMANDS
        · rw [if_pos hmem] at h
          rcases List.mem_cons.mp hq with rfl | hq'
          · refine ⟨t0 :: tl, htok, ?_⟩
            intro t ht
            simp at ht
            exact ht ▸ hmem
          · exact ih h q hq'
        · rw [if_neg hmem] at h
          simp at h

/-! ### Concrete configurations and states used by witnesses and
counterexamples -/

/-- A small valid configuration (`MIN_POOL_SIZE ≤ POOL_SIZE ≤ MAX_POOL_SIZE`). -/
def demoCfg : Config :=
  { POOL_SIZE := 1, MIN_POOL_SIZE := 1, MAX_POOL_SIZE := 2,
    AGGRESSIVE_CLEANUP := true, MAX_FILE_SIZE := 100, MAX_TOTAL_FILES := 10,
    MAX_WORKSPACE_SIZE := 1000 }

/-- The same configuration with a pool cap of one container. -/
def satCfg : Config :=
  { POOL_SIZE := 1, MIN_POOL_SIZE := 1, MAX_POOL_SIZE := 1,
    AGGRESSIVE_CLEANUP := true, MAX_FILE_SIZE := 100, MAX_TOTAL_FILES := 10,
    MAX_WORKSPACE_SIZE := 1000 }

/-- A live session record bound to container 7. -/
def demoSession : SessionData :=
  { container_id := 7, user_id := "u1", thread_id := "t1", created_at := 0,
    last_activity := 0, worker := "standalone" }

/-- A worker holding one live session on container 7, whose workspace is
empty, and whose pool is fully allocated. -/
def demoState : ServerState :=
  { pool := { containers := [], allocated := [7], nextId := 8 },
    active_sessions := [("s1", demoSession)],
    session_last_activity := [("s1", 0)],
    thread_to_session := [("t1", "s1")],
    workspaces := [(7, [])],
    nextSessionId := 0 }

/-- A fresh worker with an initialized pool and no sessions. -/
def emptyState : ServerState :=
  { pool := poolInit demoCfg, active_sessions := [],
    session_last_activity := [], thread_to_session := [], workspaces := [],
    nextSessionId := 0 }

/-- The path-traversal file name `../evil.txt`. -/
def evilName : String := "../evil.txt"

/-- The claimed-rejected command of C2's counterexample:
`'ls x' foo` (a quoted first token containing a space). -/
def quotedCmd : String :=
  squoteChar.toString ++ "ls x" ++ squoteChar.toString ++ " foo"

/-- A command whose raw lex fails: `cat 'abc` (unclosed quote). -/
def unclosedCmd : String := "cat " ++ squoteChar.toString ++ "abc"

/-- A command whose raw lex succeeds but whose re-lex of the joined part
fails: `ls "a'b"`. -/
def requoteCmd : String :=
  "ls " ++ dquoteChar.toString ++ "a" ++ squoteChar.toString ++ "b" ++
  dquoteChar.toString

/-! ### The claims -/

/-- **C1** (code bug).  The claim states that `upload` rejects any filename
containing `..` or starting with `/` before writing, on both the HTTP
endpoint and the local-mode method.  The code has no such check on either
upload path (only `download_file` checks): uploading the path-unsafe name
`../evil.txt` succeeds on both paths and the file is written into the
engine under that name. -/
theorem upload_accepts_path_traversal :
    pathUnsafe evilName = true ∧
    (upload_file_http demoCfg 1 demoState "s1" evilName [104, 105]).1 =
      .uploaded evilName (WORKSPACE_DIR ++ "/" ++ evilName) 2 ∧
    getFileInContainer
      (upload_file_http demoCfg 1 demoState "s1" evilName [104, 105]).2
      7 evilName = some [104, 105] ∧
    (sandbox_server_upload_file demoCfg 1 demoState "s1" evilName [104, 105]).1 =
      .ok { filename := evilName, path := WORKSPACE_DIR ++ "/" ++ evilName,
            size_bytes := 2 } :=
  ⟨rfl, rfl, rfl, rfl⟩

/-- **C3** (code bug).  The claim states that a saturated pool (`acquire`
returns `NONE`) makes `create_session` fail with kind `CAPACITY` and HTTP
status 503.  The endpoint raises `HTTPException(503, ...)` inside its
`try:` block, and the block's `except Exception` clause catches that very
exception and re-raises `HTTPException(500, str(e))`: the client receives
status **500**, not 503. -/
theorem create_session_saturated_returns_500 :
    validPoolConfig satCfg = true ∧
    (get_container satCfg demoState.pool).1 = none ∧
    (create_session_http satCfg 0 demoState "u1" "t9").1 =
      .err 500 "503: Pool at max capacity, try again later" :=
  ⟨rfl, rfl, rfl⟩

/-- **C6** (code bug).  The claim states that a command failing POSIX
lexing is returned as a parse-error rejection inside `INVALID_COMMAND`
(HTTP 400).  The first `shlex.split` call sits in `split_on_operators`,
*outside* the `try` of `validate_command`: on `cat 'abc` the `ValueError`
escapes the validator (an uncaught exception, surfaced by the framework as
a 500).  Only a re-lex failure of a joined part — second conjunct,
`ls "a'b"` — is caught and reported as invalid syntax. -/
theorem unclosed_quote_escapes_validator :
    validate_command unclosedCmd = .error "No closing quotation" ∧
    validate_command requoteCmd =
      .ok { valid := false,
            error := some "Invalid command syntax: No closing quotation",
            pattern := none } :=
  ⟨rfl, rfl⟩

/-- **C4** counterexample.  The claim asserts that, the whitelist
containing `cp`, `mv`, `rm`, `chmod`, the commands `mv a.txt b.txt` and
`rm old.txt` are accepted.  `FORBIDDEN_PATTERNS` contains `\brm\b` and
`\bmv\b`, and the blacklist runs first: both commands are rejected with a
forbidden-pattern error even though their first tokens are whitelisted. -/
theorem whitelisted_mv_rm_rejected :
    "mv" ∈ ALLOWED_COMMANDS ∧ "rm" ∈ ALLOWED_COMMANDS ∧
    validate_command "mv a.txt b.txt" =
      .ok { valid := false,
            error := some "Command contains forbidden pattern: \\bmv\\b",
            pattern := some "\\bmv\\b" } ∧
    validate_command "rm old.txt" =
      .ok { valid := false,
            error := some "Command contains forbidden pattern: \\brm\\b",
            pattern := some "\\brm\\b" } :=
  ⟨by decide, by decide, rfl, rfl⟩

/-- **C4** (amended).  A command that strips nonempty, matches no pattern
of the *code's* blacklist (which also forbids `rm`, `mv`, `dd`, `chmod`,
`chown` as standalone words), lexes, and whose every part re-lexes with a
whitelisted (or absent) first token, is accepted. -/
theorem validator_accepts_clean_whitelisted
    (cmd : String) (parts : List String)
    (h0 : pyStrip cmd ≠ "")
    (h1 : FORBIDDEN_PATTERNS.find? (fun q => matchesForbidden q cmd) = none)
    (h2 : split_on_operators cmd = .ok parts)
    (h3 : ∀ part ∈ parts, ∃ tokens, shlexSplit part = .ok tokens ∧
          (tokens = [] ∨ ∃ t0 tl, tokens = t0 :: tl ∧ t0 ∈ ALLOWED_COMMANDS)) :
    validate_command cmd = .ok { valid := true } := by
  have hne : cmd ≠ "" := by
    intro hc
    subst hc
    exact h0 rfl
  unfold validate_command
  rw [if_neg (by simp [hne, h0]), h1, h2]
  dsimp only
  rw [checkParts_all_whitelisted parts h3]

/-- Witness for C4: `validate("cp a.txt b.txt")` accepts (`cp` is
whitelisted and not blacklisted). -/
theorem validator_accepts_clean_whitelisted_witness :
    validate_command "cp a.txt b.txt" = .ok { valid := true } :=
  validator_accepts_clean_whitelisted "cp a.txt b.txt" ["cp a.txt b.txt"]
    (by decide) (by decide) rfl
    (by
      intro part hpart
      rw [List.mem_singleton] at hpart
      subst hpart
      exact ⟨["cp", "a.txt", "b.txt"], rfl,
        Or.inr ⟨"cp", ["a.txt", "b.txt"], rfl, by decide⟩⟩)

/-- **C2** counterexample.  On `'ls x' foo` the lexed token stream is
`["ls x", "foo"]` with no operator token, so the claim's sub-command is
`["ls x", "foo"]`, whose first token `ls x` is not whitelisted — the claim
demands rejection naming it.  The code joins the sub-command back with
spaces and re-lexes it, obtaining first token `ls`, and accepts. -/
theorem quoted_subcommand_bypasses_whitelist :
    shlexSplit quotedCmd = .ok ["ls x", "foo"] ∧
    specSubcommands ["ls x", "foo"] = [["ls x", "foo"]] ∧
    ¬ ("ls x" ∈ ALLOWED_COMMANDS) ∧
    validate_command quotedCmd = .ok { valid := true } :=
  ⟨rfl, by decide, by decide, rfl⟩

/-- **C2** (amended).  The validator accepts only if every sub-command,
after being re-joined with single spaces and **re-lexed**, has its first
re-lexed token (when any) in the whitelist.  (Operators not surrounded by
whitespace are never split off by the lexer: they stay glued to their
neighbours and the glued word faces the whitelist test.) -/
theorem validate_accepts_only_relexed_whitelisted
    (cmd : String) (parts : List String) (part : String)
    (hv : validate_command cmd = .ok { valid := true })
    (hp : split_on_operators cmd = .ok parts)
    (hmem : part ∈ parts) :
    ∃ tokens, shlexSplit part = .ok tokens ∧
      ∀ t0, tokens.head? = some t0 → t0 ∈ ALLOWED_COMMANDS := by
  unfold validate_command at hv
  split at hv
  · simp at hv
  · split at hv
    · simp at hv
    · rw [hp] at hv
      simp only [Except.ok.injEq] at hv
      exact checkParts_true_implies parts hv part hmem

/-- Witness for C2 at `cat x | grep y`, sub-command `grep y`. -/
theorem validate_accepts_only_relexed_whitelisted_witness :
    ∃ tokens, shlexSplit "grep y" = .ok tokens ∧
      ∀ t0, tokens.head? = some t0 → t0 ∈ ALLOWED_COMMANDS :=
  validate_accepts_only_relexed_whitelisted "cat x | grep y"
    ["cat x", "grep y"] "grep y" rfl rfl (by decide)

/-- **C5** counterexample.  With the valid configuration
`POOL_SIZE = 1, MIN_POOL_SIZE = 1, MAX_POOL_SIZE = 2`: initialize (one
available), acquire twice (the second creates on demand; now two
allocated, none available — the cap is reached), then the pending
asynchronous refill fires.  `_refill_pool` compares only
`len(self.containers)` against `MIN_POOL_SIZE`, never the total, so it
creates another container: 1 available + 2 allocated = 3 > max_size = 2.
The refill does *not* preserve the claimed bound. -/
theorem refill_breaks_pool_bound :
    validPoolConfig demoCfg = true ∧
    PoolReachable demoCfg
      (refill_pool demoCfg
        (get_container demoCfg (get_container demoCfg (poolInit demoCfg)).2).2) ∧
    ¬ poolBound demoCfg
      (refill_pool demoCfg
        (get_container demoCfg (get_container demoCfg (poolInit demoCfg)).2).2) :=
  ⟨by decide, .refill (.get (.get .init)), by decide⟩

/-- **C5** (amended).  `initialize` establishes the bound
`|available| + |allocated| ≤ max_size` under a valid configuration, and
`get_container` (both paths) and `return_container` (on a container the
pool allocated) preserve it; only the asynchronous refill — see the
counterexample — can break it. -/
theorem pool_ops_preserve_bound_except_refill
    (cfg : Config) (s : PoolState) (cid : Nat) :
    (validPoolConfig cfg = true → poolBound cfg (poolInit cfg)) ∧
    (poolBound cfg s → poolBound cfg (get_container cfg s).2) ∧
    (cid ∈ s.allocated → poolBound cfg s →
      poolBound cfg (return_container cfg cid s)) := by
  refine ⟨?_, ?_, ?_⟩
  · intro h
    simp only [validPoolConfig, Bool.and_eq_true, decide_eq_true_eq] at h
    simp only [poolBound, poolInit, List.length_range, List.length_nil]
    omega
  · intro h
    unfold get_container
    rcases hl : s.containers.getLast? with _ | c
    · have hc : s.containers = [] := List.getLast?_eq_none_iff.mp hl
      by_cases hge : s.allocated.length ≥ cfg.MAX_POOL_SIZE
      · simpa [hge] using h
      · simp only [hge, if_false, poolBound, List.length_append,
          List.length_singleton] at h ⊢
        rw [hc] at h ⊢
        simp only [List.length_nil] at h ⊢
        omega
    · have hne : s.containers ≠ [] := by
        intro hh
        rw [hh] at hl
        simp at hl
      have hpos : 0 < s.containers.length := List.length_pos.mpr hne
      simp only [poolBound, List.length_dropLast, List.length_append,
        List.length_singleton] at h ⊢
      omega
  · intro hmem h
    have herase : (s.allocated.erase cid).length = s.allocated.length - 1 :=
      List.length_erase_of_mem hmem
    have hpos : 0 < s.allocated.length :=
      List.length_pos.mpr (List.ne_nil_of_mem hmem)
    unfold return_container
    simp only [poolBound] at h ⊢
    split
    · split
      · simp only [List.length_append, List.length_singleton, herase]
        omega
      · split
        · simp only [List.length_append, List.length_singleton, herase]
          omega
        · simp only [herase]
          omega
    · split
      · simp only [List.length_append, List.length_singleton, herase]
        omega
      · simp only [herase]
        omega

/-- Witness for C5's amended preservation statement, at the demo
configuration, the saturated one-session pool, and container 7. -/
theorem pool_ops_preserve_bound_except_refill_witness :
    poolBound demoCfg (poolInit demoCfg) ∧
    poolBound demoCfg (get_container demoCfg demoState.pool).2 ∧
    poolBound demoCfg (return_container demoCfg 7 demoState.pool) :=
  ⟨(pool_ops_preserve_bound_except_refill demoCfg demoState.pool 7).1 (by decide),
   (pool_ops_preserve_bound_except_refill demoCfg demoState.pool 7).2.1 (by decide),
   (pool_ops_preserve_bound_except_refill demoCfg demoState.pool 7).2.2
     (by decide) (by decide)⟩

/-- **C7** (confirmed).  Any command matching a blacklist pattern makes
`/execute` answer 400 with the matched pattern in `forbidden_pattern`, and
the server state — in particular every session's `last_activity` — is
untouched: validation runs before the session fetch, the exec, and the
`touch`. -/
theorem execute_rejects_blacklisted_without_touch
    (now : Nat) (engine : Nat → String → ExecOutcome) (st : ServerState)
    (session_id cmd p : String)
    (h : FORBIDDEN_PATTERNS.find? (fun q => matchesForbidden q cmd) = some p) :
    execute_command_http now engine st session_id cmd =
      (.err 400 ("Command contains forbidden pattern: " ++ p) (some p), st) := by
  unfold execute_command_http
  rw [validate_command_forbidden h]
  rfl

/-- Witness for C7: `execute(sid, "curl http://example.com")` on the demo
worker. -/
theorem execute_rejects_blacklisted_without_touch_witness :
    execute_command_http 0
      (fun _ _ => { exit_code := 0, output := none, elapsed_ms := 0 })
      demoState "s1" "curl http://example.com" =
      (.err 400 ("Command contains forbidden pattern: " ++ "\\bcurl\\b")
        (some "\\bcurl\\b"), demoState) :=
  execute_rejects_blacklisted_without_touch 0 _ demoState "s1"
    "curl http://example.com" "\\bcurl\\b" (by decide)

/-- Storing a session then its thread mapping makes the thread resolve to
the session id. -/
theorem get_session_by_thread_after_store (st : ServerState) (now : Nat)
    (sid : String) (cid : Nat) (u t : String) :
    get_session_by_thread
      (store_thread_mapping (store_session now st sid cid u t) t sid) t =
      some sid :=
  getKV_setKV_self _ _ _

/-- Storing a session then its thread mapping stores the session record
under the session id. -/
theorem get_session_after_store (st : ServerState) (now : Nat)
    (sid : String) (cid : Nat) (u t : String) :
    get_session
      (store_thread_mapping (store_session now st sid cid u t) t sid) sid =
      some { container_id := cid, user_id := u, thread_id := t,
             created_at := now, last_activity := now,
             worker := "standalone" } :=
  getKV_setKV_self _ _ _

/-- After a successful local `create_session`, the thread maps to the
returned session id and that id is a key of `active_sessions`. -/
theorem sandbox_server_create_ok_mapped
    {cfg : Config} {now : Nat} {st st1 : ServerState} {u t : String}
    {r1 : LocalCreateResult}
    (h : sandbox_server_create_session cfg now st u t = (.ok r1, st1)) :
    get_session_by_thread st1 t = some r1.session_id ∧
    (get_session st1 r1.session_id).isSome = true := by
  have hnew : ∀ st' : ServerState,
      sandbox_server_create_new cfg now st' u t = (.ok r1, st1) →
      get_session_by_thread st1 t = some r1.session_id ∧
      (get_session st1 r1.session_id).isSome = true := by
    intro st' h
    unfold sandbox_server_create_new at h
    dsimp only at h
    rcases hg : get_container cfg st'.pool with ⟨o, pool1⟩
    rcases o with _ | cid
    · rw [hg] at h
      simp at h
    · rw [hg] at h
      dsimp only at h
      simp only [Prod.mk.injEq, Except.ok.injEq] at h
      obtain ⟨hr, hst⟩ := h
      subst hr
      subst hst
      exact ⟨get_session_by_thread_after_store _ now _ cid u t,
        by rw [get_session_after_store]; rfl⟩
  unfold sandbox_server_create_session at h
  rcases hth : get_session_by_thread st t with _ | esid
  · rw [hth] at h
    dsimp only at h
    exact hnew _ h
  · rw [hth] at h
    dsimp only at h
    by_cases hs : (get_session st esid).isSome
    · rw [if_pos hs] at h
      simp only [Prod.mk.injEq, Except.ok.injEq] at h
      obtain ⟨hr, hst⟩ := h
      subst hr
      subst hst
      exact ⟨hth, hs⟩
    · rw [if_neg hs] at h
      exact hnew _ h

/-- After a 201 `created` answer of `/create_session`, the thread maps to
the returned id and the session is stored. -/
theorem create_session_http_created_mapped
    {cfg : Config} {now : Nat} {st st1 : ServerState} {u t sid : String}
    (h : create_session_http cfg now st u t = (.created sid t, st1)) :
    get_session_by_thread st1 t = some sid ∧
    (get_session st1 sid).isSome = true := by
  have hnew : ∀ st' : ServerState,
      create_session_http_new cfg now st' u t = (.created sid t, st1) →
      get_session_by_thread st1 t = some sid ∧
      (get_session st1 sid).isSome = true := by
    intro st' h
    unfold create_session_http_new at h
    dsimp only at h
    rcases hg : get_container cfg st'.pool with ⟨o, pool1⟩
    rcases o with _ | cid
    · rw [hg] at h
      simp at h
    · rw [hg] at h
      dsimp only at h
      simp only [Prod.mk.injEq, CreateHttpResult.created.injEq] at h
      obtain ⟨⟨hr, -⟩, hst⟩ := h
      subst hr
      subst hst
      exact ⟨get_session_by_thread_after_store _ now _ cid u t,
        by rw [get_session_after_store]; rfl⟩
  unfold create_session_http at h
  rcases hth : get_session_by_thread st t with _ | esid
  · rw [hth] at h
    dsimp only at h
    exact hnew _ h
  · rw [hth] at h
    dsimp only at h
    rcases hs : get_session st esid with _ | d
    · rw [hs] at h
      dsimp only at h
      exact hnew _ h
    · rw [hs] at h
      simp at h

/-- A `/create_session` call through the creation path never answers
`existing`. -/
theorem create_session_http_new_not_existing
    {cfg : Config} {now : Nat} {st st1 : ServerState} {u t sid : String}
    (h : create_session_http_new cfg now st u t = (.existing sid t, st1)) :
    False := by
  unfold create_session_http_new at h
  dsimp only at h
  rcases hg : get_container cfg st.pool with ⟨o, pool1⟩
  rcases o with _ | cid
  · rw [hg] at h
    simp at h
  · rw [hg] at h
    simp at h

/-- **C8** (confirmed).  With a live session for `(u, t)`, a repeated
`get_or_create` returns the same `session_id` with status `existing` and
leaves the state — in particular the pool — untouched.  First conjunct:
the local `SandboxServer.create_session`; second and third: the
`/create_session` endpoint (whose second call answers 409 `existing`). -/
theorem get_or_create_twice_same_session
    (cfg : Config) (now1 now2 : Nat) (st : ServerState) (u1 u2 t : String) :
    (∀ r1 st1, sandbox_server_create_session cfg now1 st u1 t = (.ok r1, st1) →
      sandbox_server_create_session cfg now2 st1 u2 t =
        (.ok { session_id := r1.session_id, thread_id := t,
               status := "existing" }, st1)) ∧
    (∀ sid st1, create_session_http cfg now1 st u1 t = (.created sid t, st1) →
      create_session_http cfg now2 st1 u2 t = (.existing sid t, st1)) ∧
    (∀ sid st1, create_session_http cfg now1 st u1 t = (.existing sid t, st1) →
      create_session_http cfg now2 st1 u2 t = (.existing sid t, st1)) := by
  refine ⟨?_, ?_, ?_⟩
  · intro r1 st1 h
    obtain ⟨hmap, hsome⟩ := sandbox_server_create_ok_mapped h
    unfold sandbox_server_create_session
    rw [hmap]
    dsimp only
    rw [if_pos hsome]
  · intro sid st1 h
    obtain ⟨hmap, hsome⟩ := create_session_http_created_mapped h
    unfold create_session_http
    rw [hmap]
    dsimp only
    rcases hs : get_session st1 sid with _ | d
    · rw [hs] at hsome
      simp at hsome
    · rfl
  · intro sid st1 h
    unfold create_session_http at h
    rcases hth : get_session_by_thread st t with _ | esid
    · rw [hth] at h
      dsimp only at h
      exact absurd h create_session_http_new_not_existing
    · rw [hth] at h
      dsimp only at h
      rcases hs : get_session st esid with _ | d
      · rw [hs] at h
        dsimp only at h
        exact absurd h create_session_http_new_not_existing
      · rw [hs] at h
        simp only [Prod.mk.injEq, CreateHttpResult.existing.injEq] at h
        obtain ⟨⟨hr, -⟩, hst⟩ := h
        subst hr
        subst hst
        unfold create_session_http
        rw [hth]
        dsimp only
        rw [hs]

/-- Witness for C8: two successive `get_or_create("u1", "t1")` calls on a
fresh worker, for both the local method and the endpoint. -/
theorem get_or_create_twice_same_session_witness :
    sandbox_server_create_session demoCfg 6
        (sandbox_server_create_session demoCfg 5 emptyState "u1" "t1").2
        "u1" "t1" =
      (.ok { session_id := "sid-0", thread_id := "t1", status := "existing" },
       (sandbox_server_create_session demoCfg 5 emptyState "u1" "t1").2) ∧
    create_session_http demoCfg 6
        (create_session_http demoCfg 5 emptyState "u1" "t1").2 "u1" "t1" =
      (.existing "sid-0" "t1",
       (create_session_http demoCfg 5 emptyState "u1" "t1").2) :=
  ⟨(get_or_create_twice_same_session demoCfg 5 6 emptyState "u1" "u1" "t1").1
     { session_id := "sid-0", thread_id := "t1", status := "created" } _ rfl,
   (get_or_create_twice_same_session demoCfg 5 6 emptyState "u1" "u1" "t1").2.1
     "sid-0" _ rfl⟩

/-- **C10** (confirmed).  The output-parsing block both execute paths
share initializes `stdout`/`stderr` to `""` and only overwrites a field
when the corresponding stream holds bytes: a missing output object, a
`None` stream, and an empty byte string all yield `""` — the fields are
always strings, never null or absent. -/
theorem exec_output_fields_default_empty :
    parse_exec_output none = ("", "") ∧
    (∀ se : Option Bytes, (parse_exec_output (some (none, se))).1 = "") ∧
    (∀ se : Option Bytes, (parse_exec_output (some (some [], se))).1 = "") ∧
    (∀ so : Option Bytes, (parse_exec_output (some (so, none))).2 = "") ∧
    (∀ so : Option Bytes, (parse_exec_output (some (so, some []))).2 = "") := by
  refine ⟨rfl, ?_, ?_, ?_, ?_⟩ <;>
    intro x <;> simp [parse_exec_output, pyBytesTruthy]

/-- `put_archive` touches only the engine's workspaces: session lookup is
unchanged. -/
theorem get_session_put_archive (st : ServerState) (cid : Nat)
    (entry : TarEntry) (sid : String) :
    get_session (put_archive st cid entry) sid = get_session st sid := rfl

/-- `update_session_activity` touches only the session dicts: the engine's
workspaces are unchanged. -/
theorem workspaces_update_session_activity (now : Nat) (st : ServerState)
    (sid : String) :
    (update_session_activity now st sid).workspaces = st.workspaces := by
  unfold update_session_activity
  split <;> rfl

/-- Touching a session rewrites its record with the new `last_activity`. -/
theorem get_session_update_activity_self {st : ServerState} {sid : String}
    {d : SessionData} (now : Nat) (h : get_session st sid = some d) :
    get_session (update_session_activity now st sid) sid =
      some { d with last_activity := now } := by
  unfold update_session_activity
  rw [h]
  exact getKV_setKV_self _ _ _

/-- Reading back the file just written through `put_archive`. -/
theorem getFile_put_archive_self (st : ServerState) (cid : Nat)
    (entry : TarEntry) :
    getFileInContainer (put_archive st cid entry) cid entry.name =
      some entry.data := by
  unfold getFileInContainer put_archive putFileInContainer workspaceOf
  dsimp only
  rw [getKV_setKV_self]
  dsimp only [Option.getD]
  exact getKV_setKV_self _ _ _

/-- String concatenation is left-cancellative. -/
theorem append_left_cancel_str {pre a b : String}
    (h : pre ++ a = pre ++ b) : a = b := by
  have hd := congrArg String.data h
  simp only [String.data_append] at hd
  exact String.ext (List.append_cancel_left hd)

/-- The assigned pair is a member of the updated dict. -/
theorem mem_setKV_self {α β : Type} [DecidableEq α]
    (l : List (α × β)) (k : α) (v : β) : (k, v) ∈ setKV l k v := by
  induction l with
  | nil => simp [setKV]
  | cons hd tl ih =>
    obtain ⟨k0, v0⟩ := hd
    by_cases h : k0 = k
    · simp [setKV, h]
    · simp only [setKV, if_neg h, List.mem_cons]
      exact Or.inr ih

/-- Searching the updated dict by prefixed key finds the assigned pair:
no other entry can carry the same prefixed key, `++` being
left-cancellative. -/
theorem find?_append_setKV {β : Type} (pre : String)
    (l : List (String × β)) (k : String) (v : β) :
    (setKV l k v).find? (fun e => pre ++ e.1 = pre ++ k) = some (k, v) := by
  induction l with
  | nil => simp [setKV]
  | cons hd tl ih =>
    obtain ⟨k0, v0⟩ := hd
    by_cases h : k0 = k
    · subst h
      simp [setKV]
    · have hne : ¬(pre ++ k0 = pre ++ k) :=
        fun hh => h (append_left_cancel_str hh)
      simp only [setKV, if_neg h]
      rw [List.find?_cons_of_neg _ (by simpa using hne)]
      exact ih

/-- Scanning the updated dict by prefixed key succeeds. -/
theorem any_append_setKV {β : Type} (pre : String)
    (l : List (String × β)) (k : String) (v : β) :
    (setKV l k v).any (fun e => pre ++ e.1 = pre ++ k) = true := by
  rw [List.any_eq_true]
  exact ⟨(k, v), mem_setKV_self l k v, by simp⟩

/-- `put_archive` rewrites exactly the target container's workspace. -/
theorem workspaceOf_put_archive_self (st : ServerState) (cid : Nat)
    (entry : TarEntry) :
    workspaceOf (put_archive st cid entry) cid =
      setKV (workspaceOf st cid) entry.name entry.data := by
  unfold workspaceOf put_archive putFileInContainer
  dsimp only
  rw [getKV_setKV_self]
  rfl

/-- Touching a session leaves every workspace unchanged. -/
theorem workspaceOf_update_activity (now : Nat) (st : ServerState)
    (sid : String) (cid : Nat) :
    workspaceOf (update_session_activity now st sid) cid =
      workspaceOf st cid := by
  unfold workspaceOf
  rw [workspaces_update_session_activity]

/-- **C9** counterexample.  The path-safe filename `a b.txt` uploads
(`put_archive` takes the name as a tar-entry field, no shell), but the
download probe interpolates it unquoted:
`shlex.split("test -f /workspace/a b.txt")` yields four words, `test`
exits non-zero on the extra operand, and download answers 404 — the
roundtrip of the claim fails bit-for-bit at an in-scope input. -/
theorem roundtrip_fails_on_spaced_name :
    pathUnsafe "a b.txt" = false ∧
    (upload_file_http demoCfg 1 demoState "s1" "a b.txt" [1, 2, 3]).1 =
      .uploaded "a b.txt" (WORKSPACE_DIR ++ "/" ++ "a b.txt") 3 ∧
    shlexSplit (probeCmd "a b.txt") =
      .ok ["test", "-f", "/workspace/a", "b.txt"] ∧
    (download_file_http 2
      (upload_file_http demoCfg 1 demoState "s1" "a b.txt" [1, 2, 3]).2
      "s1" "a b.txt").1 = .err 404 "File not found in workspace" :=
  ⟨rfl, rfl, rfl, rfl⟩

/-- **C9** (amended).  For a live session, a path-safe nonempty filename,
and a payload within the size limit with quota headroom, `upload` followed
by `download` returns exactly the uploaded bytes — *provided* the filename
survives the unquoted interpolation into the existence probe, i.e.
`test -f /workspace/{name}` re-lexes to exactly those three words (so the
name holds no whitespace, quote, or backslash).  Without that proviso the
claim fails (see the counterexample). -/
theorem upload_then_download_roundtrip
    (cfg : Config) (now1 now2 : Nat) (st : ServerState)
    (sid name : String) (data : Bytes) (sdata : SessionData)
    (hsid : sid ≠ "") (hname : name ≠ "")
    (hsession : get_session st sid = some sdata)
    (hsafe : pathUnsafe name = false)
    (hprobe : shlexSplit (probeCmd name) =
      .ok ["test", "-f", WORKSPACE_DIR ++ "/" ++ name])
    (hsize : data.length ≤ cfg.MAX_FILE_SIZE)
    (hcount : (get_workspace_info (workspaceOf st sdata.container_id)).2 <
      cfg.MAX_TOTAL_FILES)
    (hspace : (get_workspace_info (workspaceOf st sdata.container_id)).1 +
      data.length ≤ cfg.MAX_WORKSPACE_SIZE) :
    (upload_file_http cfg now1 st sid name data).1 =
      .uploaded name (WORKSPACE_DIR ++ "/" ++ name) data.length ∧
    (download_file_http now2 (upload_file_http cfg now1 st sid name data).2
      sid name).1 = .fileResp data name := by
  have hupload : upload_file_http cfg now1 st sid name data =
      (.uploaded name (WORKSPACE_DIR ++ "/" ++ name) data.length,
       update_session_activity now1
         (put_archive st sdata.container_id { name := name, data := data })
         sid) := by
    unfold upload_file_http
    rw [if_neg hsid, hsession]
    dsimp only
    rw [if_neg (by omega), if_neg (by omega), if_neg (by omega)]
  refine ⟨by rw [hupload], ?_⟩
  rw [hupload]
  dsimp only
  unfold download_file_http
  rw [if_neg (by simp [hsid, hname])]
  rw [if_neg (by simp [hsafe])]
  have h1 : get_session
      (put_archive st sdata.container_id { name := name, data := data }) sid =
      some sdata := hsession
  have h2 := get_session_update_activity_self now1 h1
  rw [h2]
  dsimp only
  rw [hprobe]
  dsimp only
  have hws : workspaceOf
      (update_session_activity now1
        (put_archive st sdata.container_id { name := name, data := data }) sid)
      sdata.container_id =
      setKV (workspaceOf st sdata.container_id) name data := by
    rw [workspaceOf_update_activity,
      workspaceOf_put_archive_self st sdata.container_id
        { name := name, data := data }]
  have htest : test_dash_f
      (update_session_activity now1
        (put_archive st sdata.container_id { name := name, data := data }) sid)
      sdata.container_id ["test", "-f", WORKSPACE_DIR ++ "/" ++ name] =
      true := by
    unfold test_dash_f
    dsimp only
    rw [hws]
    simp [any_append_setKV]
  rw [if_pos htest]
  have harch : get_archive
      (update_session_activity now1
        (put_archive st sdata.container_id { name := name, data := data }) sid)
      sdata.container_id (WORKSPACE_DIR ++ "/" ++ name) =
      some { name := name, data := data } := by
    unfold get_archive
    rw [hws, find?_append_setKV]
  rw [harch]

/-- Witness for C9: upload then download of `a.txt` (probe-transparent)
with bytes `[1, 2, 3]` on the demo worker. -/
theorem upload_then_download_roundtrip_witness :
    (upload_file_http demoCfg 1 demoState "s1" "a.txt" [1, 2, 3]).1 =
      .uploaded "a.txt" (WORKSPACE_DIR ++ "/" ++ "a.txt") 3 ∧
    (download_file_http 2 (upload_file_http demoCfg 1 demoState "s1" "a.txt"
      [1, 2, 3]).2 "s1" "a.txt").1 = .fileResp [1, 2, 3] "a.txt" :=
  upload_then_download_roundtrip demoCfg 1 2 demoState "s1" "a.txt" [1, 2, 3]
    demoSession (by decide) (by decide) rfl (by decide) rfl (by decide)
    (by decide) (by decide)

end Sandbox
